import Mathlib

/-!
Shallow embedding of `GLTriangleBatch` (GLTools, `src/GLTriangleBatch.cpp`).

The batch assembles an indexed triangle mesh: `AddTriangle` feeds three
corners at a time, deduplicating each corner against recently stored
vertices, and `SaveMesh`/`LoadMesh` persist the compacted arrays as a
little-endian binary blob.

Modelling conventions:
* `GLfloat` attribute components are modelled as exact integers `ℤ`.
  The dedup logic only subtracts and compares components, operations that
  are order-isomorphic to the float behaviour on the values the claims
  exercise; no claim under study depends on rounding.
* The arrays `pIndexes`, `pVerts`, `pNorms`, `pTexCoords` are modelled as
  lists whose lengths play the role of `nNumIndexes` / `nNumVerts`
  (the C counts always equal the number of entries written so far).
  A NULL channel pointer is `none`.
* `m3dNormalizeVector3` (from `math3d.h`, not part of this repository
  snapshot) is an in-place mutation of the caller's normal array; the model
  takes the normalizer as a function parameter and returns the mutated
  normal triple alongside the new batch state.
* The C code writes `pIndexes[nNumIndexes]` in the match branch without a
  bounds check; the model appends to the list unconditionally there, which
  reproduces exactly the counter values the C code produces.
-/

/-- Three float components (x, y, z), modelled exactly (`M3DVector3f` is
a plain array typedef in the source). -/
abbrev Vec3 : Type := ℤ × ℤ × ℤ

/-- Two float components (u, v), modelled exactly. -/
abbrev Vec2 : Type := ℤ × ℤ

/-- Modelled from the spec: `m3dCloseEnough` lives in `math3d.h`, which is
missing from this snapshot; the spec defines it as `close(a,b,ε) ≡ |a−b| < ε`.
Written as the equivalent two one-sided strict comparisons so that it
evaluates; `m3dCloseEnough_iff_abs` recovers the spec's phrasing. -/
def m3dCloseEnough (fCandidate fCompare fEpsilon : ℤ) : Bool :=
  (fCandidate - fCompare < fEpsilon) && (fCompare - fCandidate < fEpsilon)

theorem m3dCloseEnough_iff_abs (a b e : ℤ) :
    m3dCloseEnough a b e = true ↔ |a - b| < e := by
  simp [m3dCloseEnough, abs_sub_lt_iff, and_comm]

/-- Assembly-time state of a `GLTriangleBatch`.
`nMaxIndexes` is the capacity passed to `BeginMesh`; `nNumIndexes` and
`nNumVerts` are the lengths of `pIndexes` and `pVerts`; a released optional
channel (`pNorms`/`pTexCoords` NULL) is `none`. -/
structure TriBatch where
  nMaxIndexes : Nat
  pIndexes : List Nat
  pVerts : List Vec3
  pNorms : Option (List Vec3)
  pTexCoords : Option (List Vec2)
deriving DecidableEq

/-- `GLTriangleBatch::BeginMesh(nMaxVerts)`: reset counts, allocate all four
arrays (both optional channels start out present). -/
def beginMesh (nMaxVerts : Nat) : TriBatch :=
  { nMaxIndexes := nMaxVerts
    pIndexes := []
    pVerts := []
    pNorms := some []
    pTexCoords := some [] }

/-- The match test of `AddTriangle`'s inner loop at candidate slot `iMatch`,
for a corner with (already normalized) position `v`, normal `n`, texture
coordinate `t`. The four branches mirror the four `if` blocks of the source
(lines 177-244), keyed on which optional channels are currently present;
absent channels are ignored. -/
def cornerMatches (b : TriBatch) (iMatch : Nat) (v n : Vec3) (t : Vec2)
    (epsilon : ℤ) : Bool :=
  let pv := b.pVerts.getD iMatch (0, 0, 0)
  match b.pNorms, b.pTexCoords with
  | some ns, some ts =>
      let pn := ns.getD iMatch (0, 0, 0)
      let pt := ts.getD iMatch (0, 0)
      m3dCloseEnough pv.1 v.1 epsilon && m3dCloseEnough pv.2.1 v.2.1 epsilon &&
        m3dCloseEnough pv.2.2 v.2.2 epsilon &&
        m3dCloseEnough pn.1 n.1 epsilon && m3dCloseEnough pn.2.1 n.2.1 epsilon &&
        m3dCloseEnough pn.2.2 n.2.2 epsilon &&
        m3dCloseEnough pt.1 t.1 epsilon && m3dCloseEnough pt.2 t.2 epsilon
  | some ns, none =>
      let pn := ns.getD iMatch (0, 0, 0)
      m3dCloseEnough pv.1 v.1 epsilon && m3dCloseEnough pv.2.1 v.2.1 epsilon &&
        m3dCloseEnough pv.2.2 v.2.2 epsilon &&
        m3dCloseEnough pn.1 n.1 epsilon && m3dCloseEnough pn.2.1 n.2.1 epsilon &&
        m3dCloseEnough pn.2.2 n.2.2 epsilon
  | none, some ts =>
      let pt := ts.getD iMatch (0, 0)
      m3dCloseEnough pv.1 v.1 epsilon && m3dCloseEnough pv.2.1 v.2.1 epsilon &&
        m3dCloseEnough pv.2.2 v.2.2 epsilon &&
        m3dCloseEnough pt.1 t.1 epsilon && m3dCloseEnough pt.2 t.2 epsilon
  | none, none =>
      m3dCloseEnough pv.1 v.1 epsilon && m3dCloseEnough pv.2.1 v.2.1 epsilon &&
        m3dCloseEnough pv.2.2 v.2.2 epsilon

/-- One iteration of `AddTriangle`'s corner loop (source lines 171-265).
`start` is `nSearchStart`, computed once at call entry. The scan walks
`iMatch = start .. nNumVerts-1`; on the first match the slot index alone is
appended to `pIndexes`. Otherwise the corner is appended to every present
channel and `nNumVerts` emitted, but only under the source's guard
`iMatch == nNumVerts && nNumVerts < nMaxIndexes && nNumIndexes < nMaxIndexes`;
the exit value of `iMatch` equals `nNumVerts` exactly when `start ≤ nNumVerts`. -/
def addCorner (b : TriBatch) (start : Nat) (v n : Vec3) (t : Vec2)
    (epsilon : ℤ) : TriBatch :=
  let numVerts := b.pVerts.length
  match (List.range' start (numVerts - start)).find?
      (fun i => cornerMatches b i v n t epsilon) with
  | some i => { b with pIndexes := b.pIndexes ++ [i] }
  | none =>
      if start ≤ numVerts ∧ numVerts < b.nMaxIndexes ∧
          b.pIndexes.length < b.nMaxIndexes then
        { b with
            pVerts := b.pVerts ++ [v]
            pNorms := b.pNorms.map (fun ns => ns ++ [n])
            pTexCoords := b.pTexCoords.map (fun ts => ts ++ [t])
            pIndexes := b.pIndexes ++ [b.pVerts.length] }
      else b

/-- `GLTriangleBatch::AddTriangle(verts, vNorms, vTexCoords, epsilon, nCheckRange)`.
Returns the new batch state together with the caller's normal array, which the
source normalizes in place (an observable mutation) whenever it is non-null and
the entry capacity check passes. `normalize` stands for `m3dNormalizeVector3`
(missing from this snapshot). Steps, in source order: entry capacity check
(drop when `nNumIndexes ≥ nMaxIndexes`); normalize the three caller normals;
release the texcoord channel if `vTexCoords` is null, then the normal channel
if `vNorms` is null; compute `nSearchStart = nNumVerts - nCheckRange` clamped
at 0; process the three corners. -/
def addTriangle (normalize : Vec3 → Vec3) (b : TriBatch)
    (verts : Vec3 × Vec3 × Vec3) (vNorms : Option (Vec3 × Vec3 × Vec3))
    (vTexCoords : Option (Vec2 × Vec2 × Vec2)) (epsilon : ℤ)
    (nCheckRange : Int) : TriBatch × Option (Vec3 × Vec3 × Vec3) :=
  if b.pIndexes.length ≥ b.nMaxIndexes then
    (b, vNorms)
  else
    let vNorms2 := vNorms.map
      (fun p => (normalize p.1, normalize p.2.1, normalize p.2.2))
    let b1 := if vTexCoords.isNone then { b with pTexCoords := none } else b
    let b2 := if vNorms.isNone then { b1 with pNorms := none } else b1
    let start : Nat := ((b2.pVerts.length : Int) - nCheckRange).toNat
    let n3 := vNorms2.getD ((0, 0, 0), (0, 0, 0), (0, 0, 0))
    let t3 := vTexCoords.getD ((0, 0), (0, 0), (0, 0))
    let b3 := addCorner b2 start verts.1 n3.1 t3.1 epsilon
    let b4 := addCorner b3 start verts.2.1 n3.2.1 t3.2.1 epsilon
    let b5 := addCorner b4 start verts.2.2 n3.2.2 t3.2.2 epsilon
    (b5, vNorms2)

/-- Arguments of one `AddTriangle` call. -/
structure TriCall where
  verts : Vec3 × Vec3 × Vec3
  vNorms : Option (Vec3 × Vec3 × Vec3)
  vTexCoords : Option (Vec2 × Vec2 × Vec2)
  epsilon : ℤ
  nCheckRange : Int

/-- Apply a sequence of `AddTriangle` calls to a batch state. -/
def runCalls (normalize : Vec3 → Vec3) (b : TriBatch) (cs : List TriCall) :
    TriBatch :=
  cs.foldl
    (fun s c =>
      (addTriangle normalize s c.verts c.vNorms c.vTexCoords c.epsilon
        c.nCheckRange).1)
    b

/-! Helper lemmas shared by the claim theorems. -/

theorem getD_concat_self {α : Type} (l : List α) (a d : α) :
    (l ++ [a]).getD l.length d = a := by
  rw [List.getD_append_right _ _ _ _ le_rfl]
  simp

theorem find?_range'_first (p : Nat → Bool) (i0 : Nat) :
    ∀ (start n : Nat), start ≤ i0 → i0 < start + n → p i0 = true →
      (∀ j, start ≤ j → j < i0 → p j = false) →
      (List.range' start n).find? p = some i0 := by
  intro start n
  induction n generalizing start with
  | zero => intro h1 h2 _ _; omega
  | succ m ih =>
    intro h1 h2 hp hmin
    rw [List.range'_succ]
    by_cases hcase : start = i0
    · subst hcase
      exact List.find?_cons_of_pos _ hp
    · have hfalse : p start = false := hmin start le_rfl (by omega)
      rw [List.find?_cons_of_neg _ (by simp [hfalse])]
      exact ih (start + 1) (by omega) (by omega) hp
        (fun j hj1 hj2 => hmin j (by omega) hj2)

theorem addCorner_eq_of_find_some (b : TriBatch) (start : Nat) (v n : Vec3)
    (t : Vec2) (e : ℤ) (i : Nat)
    (hf : (List.range' start (b.pVerts.length - start)).find?
      (fun j => cornerMatches b j v n t e) = some i) :
    addCorner b start v n t e = { b with pIndexes := b.pIndexes ++ [i] } := by
  simp only [addCorner]
  rw [hf]

theorem addCorner_eq_append (b : TriBatch) (start : Nat) (v n : Vec3)
    (t : Vec2) (e : ℤ)
    (hf : (List.range' start (b.pVerts.length - start)).find?
      (fun j => cornerMatches b j v n t e) = none)
    (h : start ≤ b.pVerts.length ∧ b.pVerts.length < b.nMaxIndexes ∧
      b.pIndexes.length < b.nMaxIndexes) :
    addCorner b start v n t e =
      { b with
          pVerts := b.pVerts ++ [v]
          pNorms := b.pNorms.map (fun ns => ns ++ [n])
          pTexCoords := b.pTexCoords.map (fun ts => ts ++ [t])
          pIndexes := b.pIndexes ++ [b.pVerts.length] } := by
  simp only [addCorner]
  rw [hf, if_pos h]

theorem addCorner_eq_self (b : TriBatch) (start : Nat) (v n : Vec3)
    (t : Vec2) (e : ℤ)
    (hf : (List.range' start (b.pVerts.length - start)).find?
      (fun j => cornerMatches b j v n t e) = none)
    (h : ¬(start ≤ b.pVerts.length ∧ b.pVerts.length < b.nMaxIndexes ∧
      b.pIndexes.length < b.nMaxIndexes)) :
    addCorner b start v n t e = b := by
  simp only [addCorner]
  rw [hf, if_neg h]

/-- C1 (amended): for a corner processed by a non-dropped `AddTriangle` call
with search window start `start = max(0, V - range)`, provided `start ≤ V`
(always true when `range ≥ 0`): if some slot `i` in `[start, V)` matches the
corner on position and on every currently present optional channel, the
smallest such `i` is appended to the index array and the vertex array is
unchanged; if none matches, then only when `V < N_max` and `I < N_max` are the
corner's attributes stored at slot `V` and `V` emitted and incremented —
otherwise the corner is skipped and the state is unchanged. -/
theorem addCorner_match_or_append (b : TriBatch) (start : Nat) (v n : Vec3)
    (t : Vec2) (epsilon : ℤ) (hs : start ≤ b.pVerts.length) :
    ((∀ i, start ≤ i → i < b.pVerts.length →
        cornerMatches b i v n t epsilon = false) →
      ((b.pVerts.length < b.nMaxIndexes ∧ b.pIndexes.length < b.nMaxIndexes →
          addCorner b start v n t epsilon =
            { b with
                pVerts := b.pVerts ++ [v]
                pNorms := b.pNorms.map (fun ns => ns ++ [n])
                pTexCoords := b.pTexCoords.map (fun ts => ts ++ [t])
                pIndexes := b.pIndexes ++ [b.pVerts.length] }) ∧
        (¬(b.pVerts.length < b.nMaxIndexes ∧
            b.pIndexes.length < b.nMaxIndexes) →
          addCorner b start v n t epsilon = b))) ∧
    (∀ i0, start ≤ i0 → i0 < b.pVerts.length →
      cornerMatches b i0 v n t epsilon = true →
      (∀ j, start ≤ j → j < i0 → cornerMatches b j v n t epsilon = false) →
      addCorner b start v n t epsilon =
        { b with pIndexes := b.pIndexes ++ [i0] }) := by
  constructor
  · intro hnone
    have hf : (List.range' start (b.pVerts.length - start)).find?
        (fun j => cornerMatches b j v n t epsilon) = none := by
      rw [List.find?_eq_none]
      intro x hx
      rw [List.mem_range'_1] at hx
      simp [hnone x hx.1 (by omega)]
    exact ⟨fun hcap => addCorner_eq_append b start v n t epsilon hf
        ⟨hs, hcap.1, hcap.2⟩,
      fun hcap => addCorner_eq_self b start v n t epsilon hf
        (fun hc => hcap ⟨hc.2.1, hc.2.2⟩)⟩
  · intro i0 h1 h2 hp hmin
    exact addCorner_eq_of_find_some b start v n t epsilon i0
      (find?_range'_first _ i0 start _ h1 (by omega) hp hmin)

/-- Witness for C1's theorem: on a fresh `BeginMesh(4)` batch the first corner
has no match and is appended at slot 0. -/
theorem addCorner_match_or_append_witness :
    addCorner (beginMesh 4) 0 (1, 2, 3) (4, 5, 6) (7, 8) 1 =
      { beginMesh 4 with
          pVerts := [(1, 2, 3)]
          pNorms := some [(4, 5, 6)]
          pTexCoords := some [(7, 8)]
          pIndexes := [0] } :=
  ((addCorner_match_or_append (beginMesh 4) 0 (1, 2, 3) (4, 5, 6) (7, 8) 1
      (by decide)).1
    (fun i _ h => absurd h (Nat.not_lt_zero i))).1 (by decide)

/-- Counterexample to C1 as stated: `BeginMesh(2)` then one `AddTriangle` with
three distinct corners. The call passes the entry capacity check (`0 < 2`), and
the third corner has no match, so the claim says it is stored at slot `V = 2`
with index 2 emitted and `V` incremented to 3; the code instead skips the
corner (the guard `nNumVerts < nMaxIndexes` fails), leaving `V = 2` and
indices `[0, 1]`. -/
theorem addTriangle_third_corner_dropped_cex :
    (addTriangle (fun v => v) (beginMesh 2) ((0, 0, 0), (1, 0, 0), (0, 1, 0))
        none none 0 0).1.pVerts.length = 2 ∧
    (addTriangle (fun v => v) (beginMesh 2) ((0, 0, 0), (1, 0, 0), (0, 1, 0))
        none none 0 0).1.pIndexes = [0, 1] ∧
    ¬((addTriangle (fun v => v) (beginMesh 2) ((0, 0, 0), (1, 0, 0), (0, 1, 0))
        none none 0 0).1.pVerts.length = 3) := by
  decide

/-- C2 (code bug): with `BeginMesh(1)` and one `AddTriangle` of three
coincident corners (`epsilon = 1`, `range = 1`), the first corner is appended
and the remaining two match slot 0 through the unguarded match branch, so
`nNumIndexes` ends at 3, strictly above `nMaxIndexes = 1` — the claimed
invariant `I ≤ N_max` fails (in C this writes `pIndexes[1]` and `pIndexes[2]`
past the end of a 1-element heap array). -/
theorem addTriangle_index_count_overflow :
    (beginMesh 1).nMaxIndexes = 1 ∧
    (addTriangle (fun v => v) (beginMesh 1) ((0, 0, 0), (0, 0, 0), (0, 0, 0))
        none none 1 1).1.pIndexes.length = 3 ∧
    ¬((addTriangle (fun v => v) (beginMesh 1) ((0, 0, 0), (0, 0, 0), (0, 0, 0))
        none none 1 1).1.pIndexes.length ≤ (beginMesh 1).nMaxIndexes) := by
  decide

theorem addCorner_pNorms_none (b : TriBatch) (start : Nat) (v n : Vec3)
    (t : Vec2) (e : ℤ) (h : b.pNorms = none) :
    (addCorner b start v n t e).pNorms = none := by
  simp only [addCorner]
  split
  · exact h
  · split
    · simp [h]
    · exact h

theorem addCorner_pTexCoords_none (b : TriBatch) (start : Nat) (v n : Vec3)
    (t : Vec2) (e : ℤ) (h : b.pTexCoords = none) :
    (addCorner b start v n t e).pTexCoords = none := by
  simp only [addCorner]
  split
  · exact h
  · split
    · simp [h]
    · exact h

theorem addTriangle_pNorms_none (normalize : Vec3 → Vec3) (b : TriBatch)
    (verts : Vec3 × Vec3 × Vec3) (vNorms : Option (Vec3 × Vec3 × Vec3))
    (vTexCoords : Option (Vec2 × Vec2 × Vec2)) (epsilon : ℤ) (nCheckRange : Int)
    (h : b.pNorms = none) :
    (addTriangle normalize b verts vNorms vTexCoords epsilon
      nCheckRange).1.pNorms = none := by
  simp only [addTriangle]
  split
  · exact h
  · apply addCorner_pNorms_none
    apply addCorner_pNorms_none
    apply addCorner_pNorms_none
    split
    · rfl
    · split
      · exact h
      · exact h

theorem addTriangle_pTexCoords_none (normalize : Vec3 → Vec3) (b : TriBatch)
    (verts : Vec3 × Vec3 × Vec3) (vNorms : Option (Vec3 × Vec3 × Vec3))
    (vTexCoords : Option (Vec2 × Vec2 × Vec2)) (epsilon : ℤ) (nCheckRange : Int)
    (h : b.pTexCoords = none) :
    (addTriangle normalize b verts vNorms vTexCoords epsilon
      nCheckRange).1.pTexCoords = none := by
  simp only [addTriangle]
  split
  · exact h
  · apply addCorner_pTexCoords_none
    apply addCorner_pTexCoords_none
    apply addCorner_pTexCoords_none
    split
    · split
      · rfl
      · exact h
    · split
      · rfl
      · exact h

/-- C5 (amended): the entry check drops the call exactly when `I ≥ N_max` at
entry (not when `I + 3 > N_max`); a dropped call is a complete no-op — no index,
no vertex, no channel release, and the caller's normal array is returned
untouched (the normalization code is never reached). -/
theorem addTriangle_full_batch_noop (normalize : Vec3 → Vec3) (b : TriBatch)
    (verts : Vec3 × Vec3 × Vec3) (vNorms : Option (Vec3 × Vec3 × Vec3))
    (vTexCoords : Option (Vec2 × Vec2 × Vec2)) (epsilon : ℤ) (nCheckRange : Int)
    (h : b.nMaxIndexes ≤ b.pIndexes.length) :
    addTriangle normalize b verts vNorms vTexCoords epsilon nCheckRange =
      (b, vNorms) := by
  simp only [addTriangle]
  rw [if_pos h]

/-- Witness for C5's theorem: a `BeginMesh(0)` batch drops the call and returns
the normals argument without applying the (constant) normalizer. -/
theorem addTriangle_full_batch_noop_witness :
    addTriangle (fun _ => (9, 9, 9)) (beginMesh 0)
        ((0, 0, 0), (1, 0, 0), (0, 1, 0))
        (some ((1, 2, 3), (4, 5, 6), (7, 8, 9))) none 5 3 =
      (beginMesh 0, some ((1, 2, 3), (4, 5, 6), (7, 8, 9))) :=
  addTriangle_full_batch_noop _ _ _ _ _ _ _ (by decide)

/-- Counterexample to C5 as stated: after one triangle on `BeginMesh(4)` the
state has `I = 3`, so the claimed precondition `I + 3 ≤ N_max` fails (`6 > 4`),
yet the next call is not dropped: the entry check only tests `I ≥ N_max`
(`3 < 4`), and the call emits three more (matching) indices, changing the
state. -/
theorem addTriangle_not_dropped_past_soft_capacity_cex :
    (addTriangle (fun v => v) (beginMesh 4) ((0, 0, 0), (10, 0, 0), (0, 10, 0))
        none none 0 64).1.pIndexes.length = 3 ∧
    ¬((addTriangle (fun v => v) (beginMesh 4)
        ((0, 0, 0), (10, 0, 0), (0, 10, 0)) none none 0 64).1.pIndexes.length +
          3 ≤ (beginMesh 4).nMaxIndexes) ∧
    (addTriangle (fun v => v)
        (addTriangle (fun v => v) (beginMesh 4)
          ((0, 0, 0), (10, 0, 0), (0, 10, 0)) none none 0 64).1
        ((0, 0, 0), (10, 0, 0), (0, 10, 0)) none none 1 64).1 ≠
      (addTriangle (fun v => v) (beginMesh 4)
        ((0, 0, 0), (10, 0, 0), (0, 10, 0)) none none 0 64).1 := by
  decide

/-- C10: whenever `AddTriangle` receives a non-null normals argument and
passes the entry capacity check, all three caller-supplied normal triples are
normalized in place (modelled as the returned second component), even when the
normals channel is already released (`pNorms = none`) and the normalized
values are never stored. -/
theorem addTriangle_normalizes_input (normalize : Vec3 → Vec3) (b : TriBatch)
    (verts : Vec3 × Vec3 × Vec3) (n0 n1 n2 : Vec3)
    (vTexCoords : Option (Vec2 × Vec2 × Vec2)) (epsilon : ℤ) (nCheckRange : Int)
    (h : b.pIndexes.length < b.nMaxIndexes) :
    (addTriangle normalize b verts (some (n0, n1, n2)) vTexCoords epsilon
        nCheckRange).2 = some (normalize n0, normalize n1, normalize n2) ∧
    (b.pNorms = none →
      (addTriangle normalize b verts (some (n0, n1, n2)) vTexCoords epsilon
          nCheckRange).1.pNorms = none) := by
  constructor
  · simp only [addTriangle]
    rw [if_neg (by omega)]
    rfl
  · intro hn
    exact addTriangle_pNorms_none _ _ _ _ _ _ _ hn

/-- Witness for C10's theorem: the constant normalizer visibly rewrites all
three caller normals even though the batch's normals channel is absent. -/
theorem addTriangle_normalizes_input_witness :
    (addTriangle (fun _ => (9, 9, 9)) (TriBatch.mk 3 [] [] none (some []))
        ((0, 0, 0), (1, 0, 0), (0, 1, 0))
        (some ((1, 2, 3), (4, 5, 6), (7, 8, 9)))
        (some ((0, 0), (0, 0), (0, 0))) 0 64).2 =
      some ((9, 9, 9), (9, 9, 9), (9, 9, 9)) ∧
    ((TriBatch.mk 3 [] [] none (some [])).pNorms = none →
      (addTriangle (fun _ => (9, 9, 9)) (TriBatch.mk 3 [] [] none (some []))
          ((0, 0, 0), (1, 0, 0), (0, 1, 0))
          (some ((1, 2, 3), (4, 5, 6), (7, 8, 9)))
          (some ((0, 0), (0, 0), (0, 0))) 0 64).1.pNorms = none) :=
  addTriangle_normalizes_input _ _ _ _ _ _ _ _ _ (by decide)

/-- C6 (amended): once a channel flag is cleared it stays cleared — no later
`AddTriangle` call, whatever its arguments, re-enables `pNorms` or
`pTexCoords` — and any `AddTriangle` call that passes the entry capacity
check and receives a null normals (resp. texcoords) argument leaves that
channel released. (A call dropped by the entry capacity check returns before
the channel-release code, so the amendment conditions the release on the
capacity check passing; matching ignores released channels by definition of
`cornerMatches`.) -/
theorem channel_flags_monotone (normalize : Vec3 → Vec3) :
    (∀ (b : TriBatch) (cs : List TriCall), b.pNorms = none →
      (runCalls normalize b cs).pNorms = none) ∧
    (∀ (b : TriBatch) (cs : List TriCall), b.pTexCoords = none →
      (runCalls normalize b cs).pTexCoords = none) ∧
    (∀ (b : TriBatch) (verts : Vec3 × Vec3 × Vec3)
      (vTexCoords : Option (Vec2 × Vec2 × Vec2)) (epsilon : ℤ)
      (nCheckRange : Int), b.pIndexes.length < b.nMaxIndexes →
      (addTriangle normalize b verts none vTexCoords epsilon
        nCheckRange).1.pNorms = none) ∧
    (∀ (b : TriBatch) (verts : Vec3 × Vec3 × Vec3)
      (vNorms : Option (Vec3 × Vec3 × Vec3)) (epsilon : ℤ)
      (nCheckRange : Int), b.pIndexes.length < b.nMaxIndexes →
      (addTriangle normalize b verts vNorms none epsilon
        nCheckRange).1.pTexCoords = none) := by
  refine ⟨?_, ?_, ?_, ?_⟩
  · intro b cs
    induction cs generalizing b with
    | nil => intro h; exact h
    | cons c cs ih =>
      intro h
      exact ih _ (addTriangle_pNorms_none _ _ _ _ _ _ _ h)
  · intro b cs
    induction cs generalizing b with
    | nil => intro h; exact h
    | cons c cs ih =>
      intro h
      exact ih _ (addTriangle_pTexCoords_none _ _ _ _ _ _ _ h)
  · intro b verts vTexCoords epsilon nCheckRange h
    simp only [addTriangle]
    rw [if_neg (by omega)]
    apply addCorner_pNorms_none
    apply addCorner_pNorms_none
    apply addCorner_pNorms_none
    rfl
  · intro b verts vNorms epsilon nCheckRange h
    simp only [addTriangle]
    rw [if_neg (by omega)]
    apply addCorner_pTexCoords_none
    apply addCorner_pTexCoords_none
    apply addCorner_pTexCoords_none
    split
    · rfl
    · rfl

/-- Witness for C6's theorem: a call with null normals on a fresh batch
releases the channel, and a later call with non-null normals does not
re-enable it. -/
theorem channel_flags_monotone_witness :
    (runCalls (fun v => v) (TriBatch.mk 5 [] [] none (some []))
        [TriCall.mk ((0, 0, 0), (1, 0, 0), (0, 1, 0))
          (some ((1, 0, 0), (1, 0, 0), (1, 0, 0)))
          (some ((0, 0), (0, 0), (0, 0))) 0 64]).pNorms = none ∧
    (addTriangle (fun v => v) (beginMesh 5) ((0, 0, 0), (1, 0, 0), (0, 1, 0))
        none (some ((0, 0), (0, 0), (0, 0))) 0 64).1.pNorms = none :=
  ⟨(channel_flags_monotone (fun v => v)).1 _ _ rfl,
    (channel_flags_monotone (fun v => v)).2.2.1 _ _ _ _ _ (by decide)⟩

/-- Counterexample to C6 as stated: fill `BeginMesh(3)` with one triangle
(normals present), then call `AddTriangle` with a null normals argument. The
call is dropped by the entry capacity check (`I = 3 ≥ 3`) before the
channel-release code runs, so even though the call received a null normals
argument, the normals channel is still present afterwards. -/
theorem dropped_call_keeps_norm_channel_cex :
    (addTriangle (fun v => v) (beginMesh 3) ((0, 0, 0), (10, 0, 0), (0, 10, 0))
        (some ((1, 0, 0), (1, 0, 0), (1, 0, 0)))
        (some ((0, 0), (0, 0), (0, 0))) 0 64).1.pIndexes.length = 3 ∧
    (addTriangle (fun v => v)
        (addTriangle (fun v => v) (beginMesh 3)
          ((0, 0, 0), (10, 0, 0), (0, 10, 0))
          (some ((1, 0, 0), (1, 0, 0), (1, 0, 0)))
          (some ((0, 0), (0, 0), (0, 0))) 0 64).1
        ((0, 0, 0), (0, 0, 0), (0, 0, 0)) none none 0 64).1.pNorms =
      some [(1, 0, 0), (1, 0, 0), (1, 0, 0)] ∧
    ¬((addTriangle (fun v => v)
        (addTriangle (fun v => v) (beginMesh 3)
          ((0, 0, 0), (10, 0, 0), (0, 10, 0))
          (some ((1, 0, 0), (1, 0, 0), (1, 0, 0)))
          (some ((0, 0), (0, 0), (0, 0))) 0 64).1
        ((0, 0, 0), (0, 0, 0), (0, 0, 0)) none none 0 64).1.pNorms = none) := by
  decide

theorem addCorner_indexes_lt (b : TriBatch) (start : Nat) (v n : Vec3)
    (t : Vec2) (e : ℤ) (h : ∀ k ∈ b.pIndexes, k < b.pVerts.length) :
    ∀ k ∈ (addCorner b start v n t e).pIndexes,
      k < (addCorner b start v n t e).pVerts.length := by
  intro k hk
  cases hfind : (List.range' start (b.pVerts.length - start)).find?
      (fun j => cornerMatches b j v n t e) with
  | some i =>
    rw [addCorner_eq_of_find_some b start v n t e i hfind] at hk ⊢
    have hmem := List.mem_of_find?_eq_some hfind
    rw [List.mem_range'_1] at hmem
    show k < b.pVerts.length
    have hk' : k ∈ b.pIndexes ∨ k = i := by
      simpa using List.mem_append.mp hk
    rcases hk' with hk' | hk'
    · exact h k hk'
    · omega
  | none =>
    by_cases hg : start ≤ b.pVerts.length ∧ b.pVerts.length < b.nMaxIndexes ∧
        b.pIndexes.length < b.nMaxIndexes
    · rw [addCorner_eq_append b start v n t e hfind hg] at hk ⊢
      show k < (b.pVerts ++ [v]).length
      have hk' : k ∈ b.pIndexes ∨ k = b.pVerts.length := by
        simpa using List.mem_append.mp hk
      rw [List.length_append]
      rcases hk' with hk' | hk'
      · have := h k hk'
        omega
      · simp
        omega
    · rw [addCorner_eq_self b start v n t e hfind hg] at hk ⊢
      exact h k hk

theorem addTriangle_indexes_lt (normalize : Vec3 → Vec3) (b : TriBatch)
    (verts : Vec3 × Vec3 × Vec3) (vNorms : Option (Vec3 × Vec3 × Vec3))
    (vTexCoords : Option (Vec2 × Vec2 × Vec2)) (epsilon : ℤ)
    (nCheckRange : Int) (h : ∀ k ∈ b.pIndexes, k < b.pVerts.length) :
    ∀ k ∈ (addTriangle normalize b verts vNorms vTexCoords epsilon
        nCheckRange).1.pIndexes,
      k < (addTriangle normalize b verts vNorms vTexCoords epsilon
        nCheckRange).1.pVerts.length := by
  simp only [addTriangle]
  split
  · exact h
  · apply addCorner_indexes_lt
    apply addCorner_indexes_lt
    apply addCorner_indexes_lt
    split
    · split
      · exact h
      · exact h
    · split
      · exact h
      · exact h

/-- C4: after any sequence of `AddTriangle` calls on a batch begun with
`BeginMesh(N_max)`, every emitted index is a valid slot: each entry of
`pIndexes` is strictly below the current unique-vertex count `nNumVerts`. -/
theorem runCalls_index_validity (normalize : Vec3 → Vec3) (nMax : Nat)
    (cs : List TriCall) :
    ∀ k ∈ (runCalls normalize (beginMesh nMax) cs).pIndexes,
      k < (runCalls normalize (beginMesh nMax) cs).pVerts.length := by
  have main : ∀ (cs : List TriCall) (b : TriBatch),
      (∀ k ∈ b.pIndexes, k < b.pVerts.length) →
      ∀ k ∈ (runCalls normalize b cs).pIndexes,
        k < (runCalls normalize b cs).pVerts.length := by
    intro cs
    induction cs with
    | nil => intro b h; exact h
    | cons c cs ih =>
      intro b h
      exact ih _ (addTriangle_indexes_lt _ _ _ _ _ _ _ h)
  exact main cs (beginMesh nMax) (by intro k hk; cases hk)

/-- Witness for C4's theorem: one triangle on `BeginMesh(9)` emits index 0,
which is below the vertex count 3. -/
theorem runCalls_index_validity_witness :
    0 ∈ (runCalls (fun v => v) (beginMesh 9)
        [TriCall.mk ((0, 0, 0), (1, 0, 0), (0, 1, 0)) none none 0 64]).pIndexes ∧
    0 < (runCalls (fun v => v) (beginMesh 9)
        [TriCall.mk ((0, 0, 0), (1, 0, 0), (0, 1, 0)) none none 0
          64]).pVerts.length :=
  ⟨by decide, runCalls_index_validity (fun v => v) 9 _ 0 (by decide)⟩

theorem addCorner_len (b : TriBatch) (start : Nat) (v n : Vec3) (t : Vec2)
    (e : ℤ) (hs : start ≤ b.pVerts.length) (hV : b.pVerts.length < b.nMaxIndexes)
    (hI : b.pIndexes.length < b.nMaxIndexes) :
    (addCorner b start v n t e).pIndexes.length = b.pIndexes.length + 1 ∧
    b.pVerts.length ≤ (addCorner b start v n t e).pVerts.length ∧
    (addCorner b start v n t e).pVerts.length ≤ b.pVerts.length + 1 ∧
    (addCorner b start v n t e).nMaxIndexes = b.nMaxIndexes := by
  cases hfind : (List.range' start (b.pVerts.length - start)).find?
      (fun j => cornerMatches b j v n t e) with
  | some i =>
    rw [addCorner_eq_of_find_some b start v n t e i hfind]
    refine ⟨?_, ?_, ?_, rfl⟩ <;> simp
  | none =>
    rw [addCorner_eq_append b start v n t e hfind ⟨hs, hV, hI⟩]
    refine ⟨?_, ?_, ?_, rfl⟩ <;> simp

theorem addCorner3_adds_three (B : TriBatch) (s : Nat) (v1 v2 v3 n1 n2 n3 : Vec3)
    (t1 t2 t3 : Vec2) (e : ℤ) (I N : Nat)
    (hIdx : B.pIndexes.length = I) (hMax : B.nMaxIndexes = N)
    (hs : s ≤ B.pVerts.length) (hVI : B.pVerts.length ≤ I) (hcap : I + 3 ≤ N) :
    (addCorner (addCorner (addCorner B s v1 n1 t1 e) s v2 n2 t2 e)
      s v3 n3 t3 e).pIndexes.length = I + 3 ∧
    (addCorner (addCorner (addCorner B s v1 n1 t1 e) s v2 n2 t2 e)
        s v3 n3 t3 e).pVerts.length ≤
      (addCorner (addCorner (addCorner B s v1 n1 t1 e) s v2 n2 t2 e)
        s v3 n3 t3 e).pIndexes.length ∧
    (addCorner (addCorner (addCorner B s v1 n1 t1 e) s v2 n2 t2 e)
      s v3 n3 t3 e).nMaxIndexes = N := by
  obtain ⟨a1, a2, a3, a4⟩ := addCorner_len B s v1 n1 t1 e (by omega) (by omega)
    (by omega)
  obtain ⟨b1, b2, b3, b4⟩ := addCorner_len (addCorner B s v1 n1 t1 e) s v2 n2
    t2 e (by omega) (by omega) (by omega)
  obtain ⟨d1, d2, d3, d4⟩ := addCorner_len
    (addCorner (addCorner B s v1 n1 t1 e) s v2 n2 t2 e) s v3 n3 t3 e (by omega)
    (by omega) (by omega)
  refine ⟨by omega, by omega, by omega⟩

theorem addTriangle_adds_three (normalize : Vec3 → Vec3) (b : TriBatch)
    (verts : Vec3 × Vec3 × Vec3) (vNorms : Option (Vec3 × Vec3 × Vec3))
    (vTexCoords : Option (Vec2 × Vec2 × Vec2)) (epsilon : ℤ)
    (nCheckRange : Int) (hr : 0 ≤ nCheckRange)
    (hVI : b.pVerts.length ≤ b.pIndexes.length)
    (hcap : b.pIndexes.length + 3 ≤ b.nMaxIndexes) :
    (addTriangle normalize b verts vNorms vTexCoords epsilon
      nCheckRange).1.pIndexes.length = b.pIndexes.length + 3 ∧
    (addTriangle normalize b verts vNorms vTexCoords epsilon
        nCheckRange).1.pVerts.length ≤
      (addTriangle normalize b verts vNorms vTexCoords epsilon
        nCheckRange).1.pIndexes.length ∧
    (addTriangle normalize b verts vNorms vTexCoords epsilon
      nCheckRange).1.nMaxIndexes = b.nMaxIndexes := by
  simp only [addTriangle]
  rw [if_neg (by omega)]
  dsimp only
  apply addCorner3_adds_three
  · split
    · split
      · rfl
      · rfl
    · split
      · rfl
      · rfl
  · split
    · split
      · rfl
      · rfl
    · split
      · rfl
      · rfl
  · omega
  · split
    · split
      · exact hVI
      · exact hVI
    · split
      · exact hVI
      · exact hVI
  · exact hcap

theorem runCalls_adds_three (normalize : Vec3 → Vec3) :
    ∀ (cs : List TriCall) (b : TriBatch),
      (∀ c ∈ cs, 0 ≤ c.nCheckRange) →
      b.pVerts.length ≤ b.pIndexes.length →
      b.pIndexes.length + 3 * cs.length ≤ b.nMaxIndexes →
      (runCalls normalize b cs).pIndexes.length =
        b.pIndexes.length + 3 * cs.length := by
  intro cs
  induction cs with
  | nil =>
    intro b _ _ _
    simp [runCalls]
  | cons c cs ih =>
    intro b hr hVI hcap
    simp only [List.length_cons] at hcap
    obtain ⟨h1, h2, h3⟩ := addTriangle_adds_three normalize b c.verts c.vNorms
      c.vTexCoords c.epsilon c.nCheckRange (hr c (List.mem_cons_self c cs)) hVI
      (by omega)
    have hrun : runCalls normalize b (c :: cs) =
        runCalls normalize (addTriangle normalize b c.verts c.vNorms
          c.vTexCoords c.epsilon c.nCheckRange).1 cs := rfl
    rw [hrun, ih _ (fun d hd => hr d (List.mem_cons_of_mem c hd)) h2 (by omega)]
    simp only [List.length_cons]
    omega

/-- C7 (amended): starting from `BeginMesh(N_max)`, if every call passes a
nonnegative `range` and the whole sequence fits (`3 · #calls ≤ N_max`, so no
call is dropped or truncated for capacity), then every `AddTriangle` call
emits exactly three indices: afterwards `I = 3 · #calls`, and in particular
`I` is a multiple of 3. (The amendment additionally requires `range ≥ 0`: a
negative `range` makes `nSearchStart` exceed `nNumVerts`, so every corner
fails both the scan and the append guard and the call emits nothing.) -/
theorem index_count_multiple_of_three (normalize : Vec3 → Vec3) (nMax : Nat)
    (cs : List TriCall) (hr : ∀ c ∈ cs, 0 ≤ c.nCheckRange)
    (hcap : 3 * cs.length ≤ nMax) :
    (runCalls normalize (beginMesh nMax) cs).pIndexes.length = 3 * cs.length ∧
    (runCalls normalize (beginMesh nMax) cs).pIndexes.length % 3 = 0 := by
  have h0 : (beginMesh nMax).pIndexes.length = 0 := rfl
  have hN : (beginMesh nMax).nMaxIndexes = nMax := rfl
  have h := runCalls_adds_three normalize cs (beginMesh nMax) hr le_rfl
    (by omega)
  omega

/-- Witness for C7's theorem: one in-capacity triangle on `BeginMesh(3)`
emits exactly three indices. -/
theorem index_count_multiple_of_three_witness :
    (runCalls (fun v => v) (beginMesh 3)
        [TriCall.mk ((0, 0, 0), (1, 0, 0), (0, 1, 0)) none none 0
          64]).pIndexes.length = 3 * 1 ∧
    (runCalls (fun v => v) (beginMesh 3)
        [TriCall.mk ((0, 0, 0), (1, 0, 0), (0, 1, 0)) none none 0
          64]).pIndexes.length % 3 = 0 :=
  index_count_multiple_of_three (fun v => v) 3 _ (by decide) (by decide)

/-- Counterexample to C7 as stated: `BeginMesh(9)` has room for the whole
triangle (`0 + 3 ≤ 9`), so the call is neither dropped nor truncated for
capacity, yet with `range = -1` the completed `AddTriangle` call emits no
index at all (`nSearchStart = 1 > nNumVerts`, so the scan is empty and the
append guard `iMatch == nNumVerts` fails for each corner): `I` increases by
0, not by exactly 3. -/
theorem negative_range_emits_nothing_cex :
    (beginMesh 9).pIndexes.length + 3 ≤ (beginMesh 9).nMaxIndexes ∧
    (addTriangle (fun v => v) (beginMesh 9) ((0, 0, 0), (1, 0, 0), (2, 0, 0))
        none none 0 (-1)).1.pIndexes.length = 0 ∧
    ¬((addTriangle (fun v => v) (beginMesh 9) ((0, 0, 0), (1, 0, 0), (2, 0, 0))
        none none 0 (-1)).1.pIndexes.length =
      (beginMesh 9).pIndexes.length + 3) := by
  decide

theorem m3dCloseEnough_self (e : ℤ) (he : 0 < e) (x : ℤ) :
    m3dCloseEnough x x e = true := by
  simp only [m3dCloseEnough, sub_self, decide_eq_true_eq, Bool.and_eq_true]
  exact ⟨by simpa using he, by simpa using he⟩

theorem cornerMatches_append_self (b : TriBatch) (v0 n0 : Vec3) (t0 : Vec2)
    (e : ℤ) (he : 0 < e)
    (hn : ∀ ns, b.pNorms = some ns → ns.length = b.pVerts.length)
    (ht : ∀ ts, b.pTexCoords = some ts → ts.length = b.pVerts.length) :
    cornerMatches
      { b with
          pVerts := b.pVerts ++ [v0]
          pNorms := b.pNorms.map (fun ns => ns ++ [n0])
          pTexCoords := b.pTexCoords.map (fun ts => ts ++ [t0])
          pIndexes := b.pIndexes ++ [b.pVerts.length] }
      b.pVerts.length v0 n0 t0 e = true := by
  have h1 : (b.pVerts ++ [v0])[b.pVerts.length]?.getD 0 = v0 := by
    simpa using getD_concat_self b.pVerts v0 ((0, 0, 0) : Vec3)
  cases hbn : b.pNorms with
  | none =>
    cases hbt : b.pTexCoords with
    | none =>
      simp [cornerMatches, hbn, hbt, h1, m3dCloseEnough_self e he]
    | some ts =>
      have hts : ts.length = b.pVerts.length := ht ts hbt
      have h3 : (ts ++ [t0])[b.pVerts.length]?.getD 0 = t0 := by
        rw [← hts]
        simpa using getD_concat_self ts t0 ((0, 0) : Vec2)
      simp [cornerMatches, hbn, hbt, h1, h3, m3dCloseEnough_self e he]
  | some ns =>
    have hns : ns.length = b.pVerts.length := hn ns hbn
    have h2 : (ns ++ [n0])[b.pVerts.length]?.getD 0 = n0 := by
      rw [← hns]
      simpa using getD_concat_self ns n0 ((0, 0, 0) : Vec3)
    cases hbt : b.pTexCoords with
    | none =>
      simp [cornerMatches, hbn, hbt, h1, h2, m3dCloseEnough_self e he]
    | some ts =>
      have hts : ts.length = b.pVerts.length := ht ts hbt
      have h3 : (ts ++ [t0])[b.pVerts.length]?.getD 0 = t0 := by
        rw [← hts]
        simpa using getD_concat_self ts t0 ((0, 0) : Vec2)
      simp [cornerMatches, hbn, hbt, h1, h2, h3, m3dCloseEnough_self e he]

theorem cornerMatches_append_other (b : TriBatch) (v0 n0 : Vec3) (t0 : Vec2)
    (j : Nat) (v n : Vec3) (t : Vec2) (e : ℤ) (hj : j < b.pVerts.length)
    (hn : ∀ ns, b.pNorms = some ns → ns.length = b.pVerts.length)
    (ht : ∀ ts, b.pTexCoords = some ts → ts.length = b.pVerts.length) :
    cornerMatches
      { b with
          pVerts := b.pVerts ++ [v0]
          pNorms := b.pNorms.map (fun ns => ns ++ [n0])
          pTexCoords := b.pTexCoords.map (fun ts => ts ++ [t0])
          pIndexes := b.pIndexes ++ [b.pVerts.length] }
      j v n t e = cornerMatches b j v n t e := by
  have h1 : (b.pVerts ++ [v0])[j]?.getD 0 = b.pVerts[j]?.getD 0 := by
    simpa using List.getD_append b.pVerts [v0] ((0, 0, 0) : Vec3) j hj
  cases hbn : b.pNorms with
  | none =>
    cases hbt : b.pTexCoords with
    | none => simp [cornerMatches, hbn, hbt, h1]
    | some ts =>
      have h3 : (ts ++ [t0])[j]?.getD 0 = ts[j]?.getD 0 := by
        simpa using List.getD_append ts [t0] ((0, 0) : Vec2) j
          (by rw [ht ts hbt]; omega)
      simp [cornerMatches, hbn, hbt, h1, h3]
  | some ns =>
    have h2 : (ns ++ [n0])[j]?.getD 0 = ns[j]?.getD 0 := by
      simpa using List.getD_append ns [n0] ((0, 0, 0) : Vec3) j
        (by rw [hn ns hbn]; omega)
    cases hbt : b.pTexCoords with
    | none => simp [cornerMatches, hbn, hbt, h1, h2]
    | some ts =>
      have h3 : (ts ++ [t0])[j]?.getD 0 = ts[j]?.getD 0 := by
        simpa using List.getD_append ts [t0] ((0, 0) : Vec2) j
          (by rw [ht ts hbt]; omega)
      simp [cornerMatches, hbn, hbt, h1, h2, h3]

/-- C3 (amended): with a strictly positive `epsilon` and `range` larger than
the current vertex count (so the scan window is the whole store,
`nSearchStart = 0`), a corner processed twice — same position and, for the
present channels, same (already normalized) normal and texcoord — is emitted
the same index both times, and the second processing adds no vertex: it
deduplicates onto the first. With `epsilon = 0` the claim fails, because the
spec's `close` predicate is strict (`|a − b| < ε`), so `ε = 0` matches
nothing — see the counterexample. -/
theorem addCorner_dedup_pos_epsilon (b : TriBatch) (v n : Vec3) (t : Vec2)
    (epsilon : ℤ) (nCheckRange : Int) (s1 s2 : Nat)
    (hs1 : s1 = ((b.pVerts.length : Int) - nCheckRange).toNat)
    (hs2 : s2 = (((addCorner b s1 v n t epsilon).pVerts.length : Int) -
      nCheckRange).toNat)
    (he : 0 < epsilon)
    (hr : (b.pVerts.length : Int) < nCheckRange)
    (hV : b.pVerts.length < b.nMaxIndexes)
    (hI : b.pIndexes.length < b.nMaxIndexes)
    (hn : ∀ ns, b.pNorms = some ns → ns.length = b.pVerts.length)
    (ht : ∀ ts, b.pTexCoords = some ts → ts.length = b.pVerts.length) :
    ∃ k, (addCorner b s1 v n t epsilon).pIndexes = b.pIndexes ++ [k] ∧
      (addCorner (addCorner b s1 v n t epsilon) s2 v n t epsilon).pIndexes =
        (addCorner b s1 v n t epsilon).pIndexes ++ [k] ∧
      (addCorner (addCorner b s1 v n t epsilon) s2 v n t epsilon).pVerts =
        (addCorner b s1 v n t epsilon).pVerts := by
  have hs1' : s1 = 0 := by omega
  subst hs1'
  cases hfind : (List.range' 0 (b.pVerts.length - 0)).find?
      (fun j => cornerMatches b j v n t epsilon) with
  | some i =>
    have hb1 := addCorner_eq_of_find_some b 0 v n t epsilon i hfind
    have hV1 : (addCorner b 0 v n t epsilon).pVerts.length =
        b.pVerts.length := by rw [hb1]
    have hs2' : s2 = 0 := by rw [hV1] at hs2; omega
    subst hs2'
    refine ⟨i, by rw [hb1], ?_, ?_⟩
    · rw [hb1, addCorner_eq_of_find_some
        { b with pIndexes := b.pIndexes ++ [i] } 0 v n t epsilon i hfind]
    · rw [hb1, addCorner_eq_of_find_some
        { b with pIndexes := b.pIndexes ++ [i] } 0 v n t epsilon i hfind]
  | none =>
    have hb1 := addCorner_eq_append b 0 v n t epsilon hfind
      ⟨Nat.zero_le _, hV, hI⟩
    have hV1 : (addCorner b 0 v n t epsilon).pVerts.length =
        b.pVerts.length + 1 := by rw [hb1]; simp
    have hs2' : s2 = 0 := by rw [hV1] at hs2; omega
    subst hs2'
    have hnone : ∀ j, j < b.pVerts.length →
        cornerMatches b j v n t epsilon = false := by
      intro j hj
      have := List.find?_eq_none.mp hfind j (by rw [List.mem_range'_1]; omega)
      simpa using this
    have hfind2 : (List.range' 0
        ((addCorner b 0 v n t epsilon).pVerts.length - 0)).find?
        (fun j => cornerMatches (addCorner b 0 v n t epsilon) j v n t epsilon) =
        some b.pVerts.length := by
      rw [hb1]
      refine find?_range'_first _ _ _ _ (Nat.zero_le _) (by simp) ?_ ?_
      · exact cornerMatches_append_self b v n t epsilon he hn ht
      · intro j _ hj
        rw [cornerMatches_append_other b v n t j v n t epsilon hj hn ht]
        exact hnone j hj
    have hb2 := addCorner_eq_of_find_some (addCorner b 0 v n t epsilon) 0 v n
      t epsilon b.pVerts.length hfind2
    exact ⟨b.pVerts.length, by rw [hb1], by rw [hb2], by rw [hb2]⟩

/-- Witness for C3's theorem: on a batch with both optional channels already
released, the corner `(1,2,3)` is first appended at slot 0 and then, processed
again with `epsilon = 1` and `range = 9`, deduplicates onto index 0. -/
theorem addCorner_dedup_pos_epsilon_witness :
    ∃ k, (addCorner (TriBatch.mk 5 [] [] none none) 0 (1, 2, 3) (0, 0, 1)
          (4, 5) 1).pIndexes = [] ++ [k] ∧
      (addCorner (addCorner (TriBatch.mk 5 [] [] none none) 0 (1, 2, 3)
          (0, 0, 1) (4, 5) 1) 0 (1, 2, 3) (0, 0, 1) (4, 5) 1).pIndexes =
        (addCorner (TriBatch.mk 5 [] [] none none) 0 (1, 2, 3) (0, 0, 1)
          (4, 5) 1).pIndexes ++ [k] ∧
      (addCorner (addCorner (TriBatch.mk 5 [] [] none none) 0 (1, 2, 3)
          (0, 0, 1) (4, 5) 1) 0 (1, 2, 3) (0, 0, 1) (4, 5) 1).pVerts =
        (addCorner (TriBatch.mk 5 [] [] none none) 0 (1, 2, 3) (0, 0, 1)
          (4, 5) 1).pVerts :=
  addCorner_dedup_pos_epsilon (TriBatch.mk 5 [] [] none none) (1, 2, 3)
    (0, 0, 1) (4, 5) 1 9 0 0 (by decide) (by decide) (by decide) (by decide)
    (by decide) (by decide)
    (fun ns h => Option.noConfusion h) (fun ts h => Option.noConfusion h)

/-- Counterexample to C3 as stated: with `epsilon = 0` and `range = 10 ≥ V`,
three bit-identical corners `(0,0,0)` (all present channels equal — both
optional channels are released here) do NOT deduplicate: `close(a, a, 0)` is
`|0| < 0`, which is false, so each corner is appended as a fresh vertex and
the corners receive the distinct indices 0, 1, 2. -/
theorem addTriangle_zero_epsilon_no_dedup_cex :
    (addTriangle (fun v => v) (beginMesh 10) ((0, 0, 0), (0, 0, 0), (0, 0, 0))
        none none 0 10).1.pIndexes = [0, 1, 2] ∧
    ¬((addTriangle (fun v => v) (beginMesh 10)
        ((0, 0, 0), (0, 0, 0), (0, 0, 0)) none none 0
          10).1.pIndexes.getD 1 0 =
      (addTriangle (fun v => v) (beginMesh 10)
        ((0, 0, 0), (0, 0, 0), (0, 0, 0)) none none 0
          10).1.pIndexes.getD 0 0) := by
  decide

/-! Persistence codec (`SaveMesh`/`LoadMesh`). Floats only cross this
boundary as raw 32-bit patterns, so the codec model carries every float as
its bit pattern (a `Nat` below `2^32`) and every multi-byte field in the
little-endian order `fwrite`/`fread` use on the file. -/

/-- One position or normal record: three 32-bit float patterns. -/
abbrev W3 : Type := Nat × Nat × Nat

/-- One texture-coordinate record: two 32-bit float patterns. -/
abbrev W2 : Type := Nat × Nat

/-- Little-endian bytes of a 32-bit word (`GLuint` or float pattern). -/
def enc32 (w : Nat) : List Nat :=
  [w % 256, w / 256 % 256, w / 65536 % 256, w / 16777216 % 256]

/-- Decode 4 little-endian bytes into a 32-bit word. -/
def dec32 (bs : List Nat) : Nat :=
  bs.getD 0 0 + 256 * bs.getD 1 0 + 65536 * bs.getD 2 0 +
    16777216 * bs.getD 3 0

/-- Little-endian bytes of a 16-bit word (`GLushort` index). -/
def enc16 (w : Nat) : List Nat := [w % 256, w / 256 % 256]

def encW3 (v : W3) : List Nat := enc32 v.1 ++ enc32 v.2.1 ++ enc32 v.2.2

def encW2 (v : W2) : List Nat := enc32 v.1 ++ enc32 v.2

/-- Mesh payload as `SaveMesh`/`LoadMesh` see it: `nNumIndexes` and
`nNumVerts` are the lengths of `indexes` and `verts`, a NULL optional
channel is `none`, and `boundingSphereRadius` is carried by bit pattern. -/
structure MeshData where
  indexes : List Nat
  verts : List W3
  norms : Option (List W3)
  texCoords : Option (List W2)
  radiusBits : Nat
deriving DecidableEq

/-- Modelled from the spec: the body of `GLTriangleBatch::SaveMesh(FILE*)`
is commented out in the source (the function is a stub that returns true),
and the spec (§6.2, §9) prescribes the writer symmetric to `LoadMesh` — the
same order the commented-out body has: `nNumIndexes`, `nNumVerts`, the radius
word, then indices, positions, then normals and texcoords when present. -/
def saveMesh (m : MeshData) : List Nat :=
  enc32 m.indexes.length ++ enc32 m.verts.length ++ enc32 m.radiusBits ++
    (m.indexes.map enc16).flatten ++ (m.verts.map encW3).flatten ++
    (match m.norms with
     | some ns => (ns.map encW3).flatten
     | none => []) ++
    (match m.texCoords with
     | some ts => (ts.map encW2).flatten
     | none => [])

/-- An `fread(buf, n, 1, f)` whose return value the caller compares with 1:
it succeeds only when `n ≠ 0` and `n` bytes remain (ISO C returns 0 complete
elements when `size` is 0 or the stream is short); on failure it still
consumes up to `n` bytes. -/
def freadChecked (n : Nat) (s : List Nat) : Option (List Nat) × List Nat :=
  if n ≠ 0 ∧ n ≤ s.length then (some (s.take n), s.drop n)
  else (none, s.drop n)

/-- An `fread` whose return value the source ignores (the header words and
the index and position blocks). A short read there leaves the C object
holding indeterminate data; the model returns `none` for that case, which no
stream produced by `saveMesh` triggers. -/
def freadRaw (n : Nat) (s : List Nat) : Option (List Nat × List Nat) :=
  if n ≤ s.length then some (s.take n, s.drop n) else none

def parse16s : Nat → List Nat → List Nat
  | 0, _ => []
  | k + 1, b0 :: b1 :: rest => (b0 + 256 * b1) :: parse16s k rest
  | _ + 1, _ => []

def parseW3s : Nat → List Nat → List W3
  | 0, _ => []
  | k + 1, a0 :: a1 :: a2 :: a3 :: b0 :: b1 :: b2 :: b3 ::
      c0 :: c1 :: c2 :: c3 :: rest =>
      (a0 + 256 * a1 + 65536 * a2 + 16777216 * a3,
       b0 + 256 * b1 + 65536 * b2 + 16777216 * b3,
       c0 + 256 * c1 + 65536 * c2 + 16777216 * c3) :: parseW3s k rest
  | _ + 1, _ => []

def parseW2s : Nat → List Nat → List W2
  | 0, _ => []
  | k + 1, a0 :: a1 :: a2 :: a3 :: b0 :: b1 :: b2 :: b3 :: rest =>
      (a0 + 256 * a1 + 65536 * a2 + 16777216 * a3,
       b0 + 256 * b1 + 65536 * b2 + 16777216 * b3) :: parseW2s k rest
  | _ + 1, _ => []

/-- `GLTriangleBatch::LoadMesh(FILE*, bNormals, bTexCoords)` (source lines
437-498, the GL buffer uploads omitted): read `nNumIndexes`, `nNumVerts` and
the radius word, then the index block and the position block, then —
tolerantly — the optional normal and texcoord blocks: when the checked read
fails (`1 != fread(...)`), the channel buffer is freed and the pointer
cleared instead of failing the load, and the function still reports
success. -/
def loadMesh (s : List Nat) (bNormals bTexCoords : Bool) : Option MeshData :=
  match freadRaw 4 s with
  | none => none
  | some (ib, s1) =>
    match freadRaw 4 s1 with
    | none => none
    | some (vb, s2) =>
      match freadRaw 4 s2 with
      | none => none
      | some (rb, s3) =>
        let I := dec32 ib
        let V := dec32 vb
        match freadRaw (2 * I) s3 with
        | none => none
        | some (xb, s4) =>
          match freadRaw (12 * V) s4 with
          | none => none
          | some (pb, s5) =>
            let nr := if bNormals then freadChecked (12 * V) s5
              else (none, s5)
            let tr := if bTexCoords then freadChecked (8 * V) nr.2
              else (none, nr.2)
            some { indexes := parse16s I xb
                   verts := parseW3s V pb
                   norms := nr.1.map (parseW3s V)
                   texCoords := tr.1.map (parseW2s V)
                   radiusBits := dec32 rb }

/-- Bytes a mesh's normal channel contributes to the file (`[]` if absent). -/
def normChannelBytes (o : Option (List W3)) : List Nat :=
  match o with
  | some ns => (ns.map encW3).flatten
  | none => []

/-- Bytes a mesh's texcoord channel contributes to the file. -/
def texChannelBytes (o : Option (List W2)) : List Nat :=
  match o with
  | some ts => (ts.map encW2).flatten
  | none => []

theorem dec32_enc32 (w : Nat) (h : w < 4294967296) : dec32 (enc32 w) = w := by
  show w % 256 + 256 * (w / 256 % 256) + 65536 * (w / 65536 % 256) +
    16777216 * (w / 16777216 % 256) = w
  omega

theorem freadRaw_exact (n : Nat) (a b : List Nat) (h : a.length = n) :
    freadRaw n (a ++ b) = some (a, b) := by
  subst h
  unfold freadRaw
  rw [if_pos (by simp), List.take_left, List.drop_left]

theorem freadChecked_exact (n : Nat) (a b : List Nat) (h : a.length = n)
    (h0 : n ≠ 0) : freadChecked n (a ++ b) = (some a, b) := by
  subst h
  unfold freadChecked
  rw [if_pos ⟨h0, by simp⟩, List.take_left, List.drop_left]

theorem freadChecked_zero (s : List Nat) : freadChecked 0 s = (none, s) := by
  unfold freadChecked
  rw [if_neg (by simp)]
  simp

theorem length_flatten_enc16 (l : List Nat) :
    ((l.map enc16).flatten).length = 2 * l.length := by
  induction l with
  | nil => rfl
  | cons x l ih =>
    simp only [List.map_cons, List.flatten_cons, List.length_append, ih,
      List.length_cons, enc16]
    simp only [List.length_cons, List.length_nil]
    omega

theorem length_flatten_encW3 (l : List W3) :
    ((l.map encW3).flatten).length = 12 * l.length := by
  induction l with
  | nil => rfl
  | cons x l ih =>
    simp only [List.map_cons, List.flatten_cons, List.length_append, ih,
      List.length_cons, encW3, enc32]
    simp only [List.length_cons, List.length_nil]
    omega

theorem length_flatten_encW2 (l : List W2) :
    ((l.map encW2).flatten).length = 8 * l.length := by
  induction l with
  | nil => rfl
  | cons x l ih =>
    simp only [List.map_cons, List.flatten_cons, List.length_append, ih,
      List.length_cons, encW2, enc32]
    simp only [List.length_cons, List.length_nil]
    omega

theorem parse16s_enc (l : List Nat) (h : ∀ x ∈ l, x < 65536) :
    parse16s l.length (l.map enc16).flatten = l := by
  induction l with
  | nil => rfl
  | cons x l ih =>
    have hx : x % 256 + 256 * (x / 256 % 256) = x := by
      have := h x (List.mem_cons_self x l)
      omega
    show (x % 256 + 256 * (x / 256 % 256)) ::
      parse16s l.length (l.map enc16).flatten = x :: l
    rw [hx, ih (fun y hy => h y (List.mem_cons_of_mem x hy))]

theorem parseW3s_enc (l : List W3)
    (h : ∀ w ∈ l, w.1 < 4294967296 ∧ w.2.1 < 4294967296 ∧
      w.2.2 < 4294967296) :
    parseW3s l.length (l.map encW3).flatten = l := by
  induction l with
  | nil => rfl
  | cons v l ih =>
    obtain ⟨x, y, z⟩ := v
    have hb := h (x, y, z) (List.mem_cons_self _ _)
    have hx : x % 256 + 256 * (x / 256 % 256) + 65536 * (x / 65536 % 256) +
        16777216 * (x / 16777216 % 256) = x := by
      have hxb : x < 4294967296 := by simpa using hb.1
      omega
    have hy : y % 256 + 256 * (y / 256 % 256) + 65536 * (y / 65536 % 256) +
        16777216 * (y / 16777216 % 256) = y := by
      have hyb : y < 4294967296 := by simpa using hb.2.1
      omega
    have hz : z % 256 + 256 * (z / 256 % 256) + 65536 * (z / 65536 % 256) +
        16777216 * (z / 16777216 % 256) = z := by
      have hzb : z < 4294967296 := by simpa using hb.2.2
      omega
    show (x % 256 + 256 * (x / 256 % 256) + 65536 * (x / 65536 % 256) +
        16777216 * (x / 16777216 % 256),
      y % 256 + 256 * (y / 256 % 256) + 65536 * (y / 65536 % 256) +
        16777216 * (y / 16777216 % 256),
      z % 256 + 256 * (z / 256 % 256) + 65536 * (z / 65536 % 256) +
        16777216 * (z / 16777216 % 256)) ::
      parseW3s l.length (l.map encW3).flatten = (x, y, z) :: l
    rw [hx, hy, hz, ih (fun w hw => h w (List.mem_cons_of_mem _ hw))]

theorem parseW2s_enc (l : List W2)
    (h : ∀ w ∈ l, w.1 < 4294967296 ∧ w.2 < 4294967296) :
    parseW2s l.length (l.map encW2).flatten = l := by
  induction l with
  | nil => rfl
  | cons v l ih =>
    obtain ⟨x, y⟩ := v
    have hb := h (x, y) (List.mem_cons_self _ _)
    have hx : x % 256 + 256 * (x / 256 % 256) + 65536 * (x / 65536 % 256) +
        16777216 * (x / 16777216 % 256) = x := by
      have hxb : x < 4294967296 := by simpa using hb.1
      omega
    have hy : y % 256 + 256 * (y / 256 % 256) + 65536 * (y / 65536 % 256) +
        16777216 * (y / 16777216 % 256) = y := by
      have hyb : y < 4294967296 := by simpa using hb.2
      omega
    show (x % 256 + 256 * (x / 256 % 256) + 65536 * (x / 65536 % 256) +
        16777216 * (x / 16777216 % 256),
      y % 256 + 256 * (y / 256 % 256) + 65536 * (y / 65536 % 256) +
        16777216 * (y / 16777216 % 256)) ::
      parseW2s l.length (l.map encW2).flatten = (x, y) :: l
    rw [hx, hy, ih (fun w hw => h w (List.mem_cons_of_mem _ hw))]

theorem freadChecked_all (n : Nat) (a : List Nat) (h : a.length = n)
    (h0 : n ≠ 0) : freadChecked n a = (some a, []) := by
  subst h
  unfold freadChecked
  rw [if_pos ⟨h0, le_rfl⟩]
  simp

theorem loadMesh_eq (ib vb rb xb pb tail : List Nat) (bN bT : Bool)
    (hib : ib.length = 4) (hvb : vb.length = 4) (hrb : rb.length = 4)
    (hxb : xb.length = 2 * dec32 ib) (hpb : pb.length = 12 * dec32 vb) :
    loadMesh (ib ++ (vb ++ (rb ++ (xb ++ (pb ++ tail))))) bN bT =
      some { indexes := parse16s (dec32 ib) xb
             verts := parseW3s (dec32 vb) pb
             norms := (if bN then freadChecked (12 * dec32 vb) tail
               else (none, tail)).1.map (parseW3s (dec32 vb))
             texCoords := (if bT then freadChecked (8 * dec32 vb)
                 (if bN then freadChecked (12 * dec32 vb) tail
                   else (none, tail)).2
               else (none, (if bN then freadChecked (12 * dec32 vb) tail
                 else (none, tail)).2)).1.map (parseW2s (dec32 vb))
             radiusBits := dec32 rb } := by
  simp only [loadMesh]
  rw [freadRaw_exact 4 ib _ hib]
  dsimp only
  rw [freadRaw_exact 4 vb _ hvb]
  dsimp only
  rw [freadRaw_exact 4 rb _ hrb]
  dsimp only
  rw [freadRaw_exact (2 * dec32 ib) xb _ hxb]
  dsimp only
  rw [freadRaw_exact (12 * dec32 vb) pb _ hpb]

/-- C8: for every well-formed mesh (counts below `2^32`, indices below
`2^16`, float patterns below `2^32`, present channels of length `V`),
`SaveMesh` followed by `LoadMesh` with matching `hasN`/`hasT` parameters
succeeds and reproduces `I` and `V` (as the lengths of the reproduced
arrays), the radius bit pattern, the index and position arrays, and the
optional channels byte-identically (an absent or empty channel contributes
zero bytes; note a present channel with `V = 0` reloads as absent because
`fread` with size 0 reports failure, but its byte payload — empty — is still
reproduced exactly). `SaveMesh` is spec-modelled; see its doc comment. -/
theorem saveMesh_loadMesh_roundtrip (m : MeshData)
    (hI : m.indexes.length < 4294967296) (hV : m.verts.length < 4294967296)
    (hr : m.radiusBits < 4294967296)
    (hx : ∀ w ∈ m.indexes, w < 65536)
    (hv : ∀ w ∈ m.verts, w.1 < 4294967296 ∧ w.2.1 < 4294967296 ∧
      w.2.2 < 4294967296)
    (hn : ∀ ns, m.norms = some ns → ns.length = m.verts.length ∧
      ∀ w ∈ ns, w.1 < 4294967296 ∧ w.2.1 < 4294967296 ∧ w.2.2 < 4294967296)
    (ht : ∀ ts, m.texCoords = some ts → ts.length = m.verts.length ∧
      ∀ w ∈ ts, w.1 < 4294967296 ∧ w.2 < 4294967296) :
    ∃ m', loadMesh (saveMesh m) m.norms.isSome m.texCoords.isSome = some m' ∧
      m'.indexes = m.indexes ∧ m'.verts = m.verts ∧
      m'.radiusBits = m.radiusBits ∧
      normChannelBytes m'.norms = normChannelBytes m.norms ∧
      texChannelBytes m'.texCoords = texChannelBytes m.texCoords := by
  have hsave : saveMesh m =
      enc32 m.indexes.length ++ (enc32 m.verts.length ++ (enc32 m.radiusBits ++
        ((m.indexes.map enc16).flatten ++ ((m.verts.map encW3).flatten ++
          (normChannelBytes m.norms ++ texChannelBytes m.texCoords))))) := by
    simp [saveMesh, normChannelBytes, texChannelBytes, List.append_assoc]
  have hxlen : ((m.indexes.map enc16).flatten).length =
      2 * dec32 (enc32 m.indexes.length) := by
    rw [dec32_enc32 _ hI]
    exact length_flatten_enc16 _
  have hplen : ((m.verts.map encW3).flatten).length =
      12 * dec32 (enc32 m.verts.length) := by
    rw [dec32_enc32 _ hV]
    exact length_flatten_encW3 _
  rw [hsave, loadMesh_eq (enc32 m.indexes.length) (enc32 m.verts.length)
    (enc32 m.radiusBits) ((m.indexes.map enc16).flatten)
    ((m.verts.map encW3).flatten)
    (normChannelBytes m.norms ++ texChannelBytes m.texCoords)
    m.norms.isSome m.texCoords.isSome rfl rfl rfl hxlen hplen,
    dec32_enc32 _ hI, dec32_enc32 _ hV, dec32_enc32 _ hr]
  refine ⟨_, rfl, ?_, ?_, ?_, ?_, ?_⟩
  · exact parse16s_enc m.indexes hx
  · exact parseW3s_enc m.verts hv
  · rfl
  · -- normal channel bytes
    cases hmn : m.norms with
    | none => simp [normChannelBytes]
    | some ns =>
      obtain ⟨hlen, hbounds⟩ := hn ns hmn
      have hparse : parseW3s m.verts.length ((ns.map encW3).flatten) = ns := by
        rw [← hlen]
        exact parseW3s_enc ns hbounds
      by_cases hV0 : m.verts.length = 0
      · have hns : ns = [] := List.eq_nil_of_length_eq_zero (by omega)
        subst hns
        simp [normChannelBytes, hV0, freadChecked_zero]
      · have h12 : ((ns.map encW3).flatten).length = 12 * m.verts.length := by
          rw [length_flatten_encW3, hlen]
        have hfc := freadChecked_exact (12 * m.verts.length)
          ((ns.map encW3).flatten) (texChannelBytes m.texCoords) h12
          (by omega)
        simp only [normChannelBytes, Option.isSome_some, if_true, hfc,
          Option.map_some']
        rw [hparse]
  · -- texcoord channel bytes
    cases hmn : m.norms with
    | none =>
      cases hmt : m.texCoords with
      | none => simp [texChannelBytes]
      | some ts =>
        obtain ⟨hlen, hbounds⟩ := ht ts hmt
        have hparse : parseW2s m.verts.length ((ts.map encW2).flatten) = ts := by
          rw [← hlen]
          exact parseW2s_enc ts hbounds
        by_cases hV0 : m.verts.length = 0
        · have hts : ts = [] := List.eq_nil_of_length_eq_zero (by omega)
          subst hts
          simp [texChannelBytes, hV0, freadChecked_zero]
        · have h8 : ((ts.map encW2).flatten).length = 8 * m.verts.length := by
            rw [length_flatten_encW2, hlen]
          have hfc8 := freadChecked_all _ _ h8
            (by omega : 8 * m.verts.length ≠ 0)
          simp [normChannelBytes, texChannelBytes, hfc8, hparse]
    | some ns =>
      obtain ⟨hlenN, hboundsN⟩ := hn ns hmn
      cases hmt : m.texCoords with
      | none =>
        by_cases hV0 : m.verts.length = 0
        · simp [texChannelBytes, hV0, freadChecked_zero]
        · have h12 : ((ns.map encW3).flatten).length = 12 * m.verts.length := by
            rw [length_flatten_encW3, hlenN]
          have hfc := freadChecked_exact (12 * m.verts.length)
            ((ns.map encW3).flatten) (texChannelBytes m.texCoords) h12
            (by omega)
          simp [normChannelBytes, texChannelBytes, hfc]
      | some ts =>
        obtain ⟨hlenT, hboundsT⟩ := ht ts hmt
        have hparse : parseW2s m.verts.length ((ts.map encW2).flatten) = ts := by
          rw [← hlenT]
          exact parseW2s_enc ts hboundsT
        by_cases hV0 : m.verts.length = 0
        · have hts : ts = [] := List.eq_nil_of_length_eq_zero (by omega)
          subst hts
          simp [texChannelBytes, hV0, freadChecked_zero]
        · have h12 : ((ns.map encW3).flatten).length = 12 * m.verts.length := by
            rw [length_flatten_encW3, hlenN]
          have h8 : ((ts.map encW2).flatten).length = 8 * m.verts.length := by
            rw [length_flatten_encW2, hlenT]
          have hfcN := freadChecked_exact (12 * m.verts.length)
            ((ns.map encW3).flatten) ((ts.map encW2).flatten) h12 (by omega)
          have hfc8 := freadChecked_all _ _ h8
            (by omega : 8 * m.verts.length ≠ 0)
          simp [normChannelBytes, texChannelBytes, hfcN, hfc8, hparse]

/-- Witness for C8's theorem: a two-vertex mesh with both channels present
round-trips through `saveMesh`/`loadMesh`. -/
theorem saveMesh_loadMesh_roundtrip_witness :
    ∃ m', loadMesh (saveMesh (MeshData.mk [0, 1, 0] [(1, 2, 3), (4, 5, 6)]
          (some [(7, 8, 9), (10, 11, 12)]) (some [(13, 14), (15, 16)]) 42))
        (MeshData.mk [0, 1, 0] [(1, 2, 3), (4, 5, 6)]
          (some [(7, 8, 9), (10, 11, 12)]) (some [(13, 14), (15, 16)])
          42).norms.isSome
        (MeshData.mk [0, 1, 0] [(1, 2, 3), (4, 5, 6)]
          (some [(7, 8, 9), (10, 11, 12)]) (some [(13, 14), (15, 16)])
          42).texCoords.isSome = some m' ∧
      m'.indexes = [0, 1, 0] ∧ m'.verts = [(1, 2, 3), (4, 5, 6)] ∧
      m'.radiusBits = 42 ∧
      normChannelBytes m'.norms =
        normChannelBytes (some [(7, 8, 9), (10, 11, 12)]) ∧
      texChannelBytes m'.texCoords =
        texChannelBytes (some [(13, 14), (15, 16)]) :=
  saveMesh_loadMesh_roundtrip
    (MeshData.mk [0, 1, 0] [(1, 2, 3), (4, 5, 6)]
      (some [(7, 8, 9), (10, 11, 12)]) (some [(13, 14), (15, 16)]) 42)
    (by decide) (by decide) (by decide) (by decide) (by decide)
    (fun ns h => by
      have h2 : ns = [(7, 8, 9), (10, 11, 12)] := by
        injection h with h3
        exact h3.symm
      subst h2
      exact ⟨by decide, by decide⟩)
    (fun ts h => by
      have h2 : ts = [(13, 14), (15, 16)] := by
        injection h with h3
        exact h3.symm
      subst h2
      exact ⟨by decide, by decide⟩)

/-- C9: during `LoadMesh` with `bNormals` (respectively `bTexCoords`) passed
as true, if reading the normals (respectively texcoords) block yields a short
read (fewer bytes remain than the block needs — or `V = 0`, where `fread` of
size 0 also reports 0 complete elements), the load does not fail: that
channel's buffer is freed and its pointer cleared (`none` in the result) and
`LoadMesh` still reports success. The first conjunct covers the normals block
(any texcoord flag); the second covers the texcoords block (any normals flag,
with the normals block intact when present, since it precedes the texcoords
block in the file). -/
theorem loadMesh_short_optional_tolerated (I V rBits : Nat) (xb pb : List Nat)
    (hI : I < 4294967296) (hV : V < 4294967296) (hr : rBits < 4294967296)
    (hxb : xb.length = 2 * I) (hpb : pb.length = 12 * V) :
    (∀ (tail : List Nat) (bT : Bool), tail.length < 12 * V ∨ 12 * V = 0 →
      ∃ m', loadMesh (enc32 I ++ (enc32 V ++ (enc32 rBits ++
          (xb ++ (pb ++ tail))))) true bT = some m' ∧ m'.norms = none) ∧
    (∀ (nb tail : List Nat) (bN : Bool),
      nb.length = (if bN then 12 * V else 0) →
      tail.length < 8 * V ∨ 8 * V = 0 →
      ∃ m', loadMesh (enc32 I ++ (enc32 V ++ (enc32 rBits ++
          (xb ++ (pb ++ (nb ++ tail)))))) bN true = some m' ∧
        m'.texCoords = none) := by
  have hxb' : xb.length = 2 * dec32 (enc32 I) := by
    rw [dec32_enc32 _ hI]
    exact hxb
  have hpb' : pb.length = 12 * dec32 (enc32 V) := by
    rw [dec32_enc32 _ hV]
    exact hpb
  constructor
  · intro tail bT hshort
    rw [loadMesh_eq (enc32 I) (enc32 V) (enc32 rBits) xb pb tail true bT
      rfl rfl rfl hxb' hpb', dec32_enc32 _ hI, dec32_enc32 _ hV,
      dec32_enc32 _ hr]
    have hfail : freadChecked (12 * V) tail = (none, tail.drop (12 * V)) := by
      unfold freadChecked
      rw [if_neg (by rintro ⟨h1, h2⟩; omega)]
    refine ⟨_, rfl, ?_⟩
    simp [hfail]
  · intro nb tail bN hnb hshort
    rw [loadMesh_eq (enc32 I) (enc32 V) (enc32 rBits) xb pb (nb ++ tail) bN
      true rfl rfl rfl hxb' hpb', dec32_enc32 _ hI, dec32_enc32 _ hV,
      dec32_enc32 _ hr]
    have hnr : (if bN then freadChecked (12 * V) (nb ++ tail)
        else (none, nb ++ tail)).2 = tail := by
      cases bN with
      | false =>
        have hnil : nb = [] := List.eq_nil_of_length_eq_zero (by simpa using hnb)
        simp [hnil]
      | true =>
        simp only [if_true]
        by_cases hV0 : 12 * V = 0
        · have hnil : nb = [] := List.eq_nil_of_length_eq_zero
            (by simp at hnb; omega)
          subst hnil
          rw [hV0, freadChecked_zero]
          simp
        · rw [freadChecked_exact (12 * V) nb tail (by simpa using hnb) hV0]
    have hfail : freadChecked (8 * V) tail = (none, tail.drop (8 * V)) := by
      unfold freadChecked
      rw [if_neg (by rintro ⟨h1, h2⟩; omega)]
    refine ⟨_, rfl, ?_⟩
    simp [hnr, hfail]

/-- Witness for C9's theorem: a one-vertex header whose normals block is cut
short (3 bytes instead of 12) still loads with the normals channel absent;
and, with a full normals block present, a texcoords block cut short (1 byte
instead of 8) still loads with the texcoords channel absent. -/
theorem loadMesh_short_optional_tolerated_witness :
    (∃ m', loadMesh (enc32 0 ++ (enc32 1 ++ (enc32 5 ++
        ([] ++ ([0, 0, 0, 0, 0, 0, 0, 0, 0, 0, 0, 0] ++ [1, 2, 3])))))
      true false = some m' ∧ m'.norms = none) ∧
    (∃ m', loadMesh (enc32 0 ++ (enc32 1 ++ (enc32 5 ++
        ([] ++ ([0, 0, 0, 0, 0, 0, 0, 0, 0, 0, 0, 0] ++
          ([9, 9, 9, 9, 9, 9, 9, 9, 9, 9, 9, 9] ++ [7]))))))
      true true = some m' ∧ m'.texCoords = none) :=
  ⟨(loadMesh_short_optional_tolerated 0 1 5 []
      [0, 0, 0, 0, 0, 0, 0, 0, 0, 0, 0, 0] (by decide) (by decide) (by decide)
      (by decide) (by decide)).1 [1, 2, 3] false (by decide),
    (loadMesh_short_optional_tolerated 0 1 5 []
      [0, 0, 0, 0, 0, 0, 0, 0, 0, 0, 0, 0] (by decide) (by decide) (by decide)
      (by decide) (by decide)).2 [9, 9, 9, 9, 9, 9, 9, 9, 9, 9, 9, 9] [7]
      true (by decide) (by decide)⟩
